import Mathlib

/-!
Shallow embedding of `tehbilly/go-module-cost` (`analyzer.go`, package
`modulecost`) and verification of the frozen claims about it.

Modelling conventions:
* Go `error` values are modelled as `Err := String`; a nil error is `none`
  (as a field) or the `Except.ok` constructor (as a return value).
* Go `uint64` sizes are natural numbers; the one arithmetic operation on
  them, `result.WithMod - baseSize`, is modelled by `sub64`, subtraction
  modulo `2 ^ 64` (Go unsigned subtraction wraps).
* Filesystem and subprocess effects (`calcBytes` for the baseline build,
  `calcBytes` for the per-module build, and the contents of the generated
  `go.mod` read back by `versionFromModFile`) are abstracted into a
  `BuildEnv` of deterministic outcome functions; `Analyze` is a pure
  function of that environment and the configuration.
* Wall-clock durations (`Result.Duration`) are real time and are not
  modelled; no claim mentions them.
-/

namespace ModuleCost

/-- Go errors, abstracted to their message. -/
abbrev Err := String

/-- `Result` of `analyzer.go` (minus the wall-clock `Duration` field):
one outcome per Module / GOOS / GOARCH combination. -/
structure Result where
  Error : Option Err
  Module : String
  Version : String
  GOOS : String
  GOARCH : String
  Baseline : Nat
  WithMod : Nat
  Cost : Nat
deriving Repr, DecidableEq, Inhabited

/-- `Analyzer` of `analyzer.go`: configuration of one analysis run. -/
structure Analyzer where
  workDir : String
  modules : List String
  goos : List String
  goarch : List String
deriving Repr, DecidableEq, Inhabited

/-- The Go zero value `&Analyzer{}` that `NewAnalyzer` starts from. -/
def emptyAnalyzer : Analyzer := { workDir := "", modules := [], goos := [], goarch := [] }

/-- Host facts read by `validate`: `runtime.GOOS`, `runtime.GOARCH`,
`os.TempDir()`. -/
structure Host where
  goos : String
  goarch : String
  tempDir : String
deriving Repr, DecidableEq, Inhabited

/-- `filepath.Join` restricted to the two-segment uses in `analyzer.go`
(the path-cleaning behaviour of Go's `Join` is irrelevant to the claims). -/
def filepathJoin (a b : String) : String := a ++ "/" ++ b

/-- The source's `Option` type: `func(a *Analyzer) error`, modelled as a
state-passing function that may fail. -/
abbrev AnalyzerOption := Analyzer → Except Err Analyzer

/-- `WithWorkDir` of `analyzer.go`. -/
def WithWorkDir (workDir : String) : AnalyzerOption := fun a =>
  .ok (if workDir ≠ "" then { a with workDir := workDir } else a)

/-- `WithModule` of `analyzer.go`. -/
def WithModule (module : String) : AnalyzerOption := fun a =>
  .ok (if module ≠ "" then { a with modules := a.modules ++ [module] } else a)

/-- The `for … { if x != "" { list = append(list, x) } }` loop shared by
`WithModules`, `WithGOOSes` and `WithGOARCHes`. -/
def appendNonempty (acc : List String) (items : List String) : List String :=
  items.foldl (fun acc it => if it ≠ "" then acc ++ [it] else acc) acc

/-- `WithModules` of `analyzer.go`. -/
def WithModules (modules : List String) : AnalyzerOption := fun a =>
  .ok { a with modules := appendNonempty a.modules modules }

/-- `WithGOOS` of `analyzer.go`. -/
def WithGOOS (goos : String) : AnalyzerOption := fun a =>
  .ok (if goos ≠ "" then { a with goos := a.goos ++ [goos] } else a)

/-- `WithGOOSes` of `analyzer.go`. -/
def WithGOOSes (gooses : List String) : AnalyzerOption := fun a =>
  .ok { a with goos := appendNonempty a.goos gooses }

/-- `WithGOARCH` of `analyzer.go`. -/
def WithGOARCH (goarch : String) : AnalyzerOption := fun a =>
  .ok (if goarch ≠ "" then { a with goarch := a.goarch ++ [goarch] } else a)

/-- `WithGOARCHes` of `analyzer.go`. -/
def WithGOARCHes (goarches : List String) : AnalyzerOption := fun a =>
  .ok { a with goarch := appendNonempty a.goarch goarches }

/-- `validate` of `analyzer.go`: reject an empty module list, then fill
defaults for workDir, goos, goarch. -/
def validate (h : Host) (a : Analyzer) : Except Err Analyzer :=
  if a.modules.length = 0 then
    .error "must provide at least one module to analyze"
  else
    let a := if a.workDir = "" then { a with workDir := filepathJoin h.tempDir "go-module-cost" } else a
    let a := if a.goos.length = 0 then { a with goos := a.goos ++ [h.goos] } else a
    let a := if a.goarch.length = 0 then { a with goarch := a.goarch ++ [h.goarch] } else a
    .ok a

/-- The option-application loop of `NewAnalyzer`: apply each option in
order, stopping at the first error. -/
def applyOptions : List AnalyzerOption → Analyzer → Except Err Analyzer
  | [], a => .ok a
  | o :: rest, a =>
    match o a with
    | .error e => .error e
    | .ok a2 => applyOptions rest a2

/-- `NewAnalyzer` of `analyzer.go`. It performs no filesystem action:
construction only assigns fields (so in particular no working directory is
created at construction time). -/
def NewAnalyzer (options : List AnalyzerOption) (h : Host) : Except Err Analyzer :=
  match applyOptions options emptyAnalyzer with
  | .error e => .error e
  | .ok a => validate h a

/-- One entry of `modfile.File.Require` as used by `versionFromModFile`:
a required module path, its version, and the indirect marker. -/
structure Require where
  path : String
  version : String
  indirect : Bool
deriving Repr, DecidableEq, Inhabited

/-- The requirement-scanning loop of `versionFromModFile` (`analyzer.go`
lines 390–396): return the first requirement `r` with
`r.Mod.Path == module || !r.Indirect`; if none, the requested module with
the sentinel version `"<unknown>"`. -/
def selectRequire (reqs : List Require) (module : String) : String × String :=
  match reqs with
  | [] => (module, "<unknown>")
  | r :: rest =>
    if r.path = module ∨ ¬r.indirect then (r.path, r.version)
    else selectRequire rest module

/-- `versionFromModFile` of `analyzer.go`, with the file read + parse of the
generated `go.mod` abstracted into its outcome `contents` (an error from
`os.ReadFile` or `modfile.Parse`, or the parsed requirement list). Returns
(path, version, error). -/
def versionFromModFile (contents : Except Err (List Require)) (module : String) :
    String × String × Option Err :=
  match contents with
  | .error e => (module, "", some e)
  | .ok reqs =>
    let pv := selectRequire reqs module
    (pv.1, pv.2, none)

/-- Outcomes of the external build/filesystem steps, per input. `baseCalc`
abstracts `a.calcBytes(workDir/base, "", goos, goarch)`; `modCalc` abstracts
`a.calcBytes(workDir/<mod>/mod, module, goos, goarch)`; `modRequires`
abstracts reading and parsing the generated `go.mod` after that build (the
input to `versionFromModFile`). The builds are from-scratch and the
environment deterministic for one run. -/
structure BuildEnv where
  baseCalc : String → String → Except Err Nat
  modCalc : String → String → String → Except Err Nat
  modRequires : String → String → String → Except Err (List Require)

/-- Go `uint64` subtraction (`result.WithMod - baseSize`): subtraction
modulo `2 ^ 64`, wrapping when the subtrahend is larger. -/
def sub64 (a b : Nat) : Nat := (a % 2 ^ 64 + (2 ^ 64 - b % 2 ^ 64)) % 2 ^ 64

/-- The baseline-cache key `fmt.Sprintf("%s:%s", goos, goarch)`. -/
def mapKey (goos goarch : String) : String := goos ++ ":" ++ goarch

/-- The empty Go map `map[string]uint64{}` with its zero-value-on-miss
lookup semantics. -/
def initMap : String → Nat := fun _ => 0

/-- `analyzeModule` of `analyzer.go`: build with the module, then resolve
the version from the generated `go.mod`; returns the `(*Result, error)`
pair (on failure the Result carries the error and zero values). -/
def analyzeModule (env : BuildEnv) (module goos goarch : String) : Result × Option Err :=
  match env.modCalc module goos goarch with
  | .error e =>
    ({ Error := some e, Module := module, Version := "", GOOS := goos, GOARCH := goarch,
       Baseline := 0, WithMod := 0, Cost := 0 }, some e)
  | .ok modSize =>
    let v := versionFromModFile (env.modRequires module goos goarch) module
    match v.2.2 with
    | some e =>
      ({ Error := some e, Module := module, Version := "", GOOS := goos, GOARCH := goarch,
         Baseline := 0, WithMod := 0, Cost := 0 }, some e)
    | none =>
      ({ Error := none, Module := v.1, Version := v.2.1, GOOS := goos, GOARCH := goarch,
         Baseline := 0, WithMod := modSize, Cost := 0 }, none)

/-- The body of the result loop of `Analyze` (`analyzer.go` lines 213–224):
on error append the error Result as is; on success fill in the cached
baseline and the wrapped cost. -/
def resultFor (env : BuildEnv) (baseSizes : String → Nat) (goos goarch module : String) :
    Result :=
  let p := analyzeModule env module goos goarch
  match p.2 with
  | some _ => p.1
  | none =>
    let baseSize := baseSizes (mapKey goos goarch)
    { p.1 with Baseline := baseSize, Cost := sub64 p.1.WithMod baseSize }

/-- The inner baseline loop of `Analyze` for one GOOS: measure each GOARCH
baseline, storing it under the `goos:goarch` key, stopping at the first
error. -/
def baselineRow (env : BuildEnv) (goos : String) : List String → (String → Nat) →
    Except Err (String → Nat)
  | [], m => .ok m
  | goarch :: rest, m =>
    match env.baseCalc goos goarch with
    | .error e => .error e
    | .ok baseSize =>
      baselineRow env goos rest (fun k => if k = mapKey goos goarch then baseSize else m k)

/-- The outer baseline loop of `Analyze` over all GOOS values. -/
def baselineAll (env : BuildEnv) : List String → List String → (String → Nat) →
    Except Err (String → Nat)
  | [], _, m => .ok m
  | goos :: rest, goarches, m =>
    match baselineRow env goos goarches m with
    | .error e => .error e
    | .ok m2 => baselineAll env rest goarches m2

/-- `Analyze` of `analyzer.go`: the baseline phase over GOOS×GOARCH (any
failure aborts with that error and no results), then the triple loop —
GOOS outermost, GOARCH middle, module innermost, each in input order,
appending one Result per triple (`List.flatMap`/`List.map` is exactly the
nested append loop). -/
def Analyze (env : BuildEnv) (a : Analyzer) : Except Err (List Result) :=
  match baselineAll env a.goos a.goarch initMap with
  | .error e => .error e
  | .ok baseSizes =>
    .ok (a.goos.flatMap fun goos =>
      a.goarch.flatMap fun goarch =>
        a.modules.map fun module => resultFor env baseSizes goos goarch module)

/-- The GOOS-outer, GOARCH-middle, module-inner cross product of the
configured lists, in input order: the iteration order of `Analyze`'s
result loop. -/
def tripleProd (gs ars ms : List String) : List (String × String × String) :=
  gs.flatMap fun g => ars.flatMap fun ar => ms.map fun mo => (g, ar, mo)

/-- The value carried by an `Except.ok`, defaulting to 0. -/
def okVal : Except Err Nat → Nat
  | .ok n => n
  | .error _ => 0

/-- Functional form of one baseline row: the map after measuring every
GOARCH for one GOOS (assuming each measurement succeeded). -/
def pureRow (env : BuildEnv) (goos : String) (goarches : List String) (m : String → Nat) :
    String → Nat :=
  goarches.foldl (fun m goarch =>
    fun k => if k = mapKey goos goarch then okVal (env.baseCalc goos goarch) else m k) m

/-- Functional form of the whole baseline phase (assuming every measurement
succeeded). -/
def pureAll (env : BuildEnv) (gooses goarches : List String) (m : String → Nat) :
    String → Nat :=
  gooses.foldl (fun m goos => pureRow env goos goarches m) m

/-- A concrete host for witnesses. -/
def host0 : Host := { goos := "linux", goarch := "amd64", tempDir := "/tmp" }

/-- A concrete environment where every build succeeds. -/
def envA : BuildEnv :=
  { baseCalc := fun _ _ => .ok 100
    modCalc := fun _ _ _ => .ok 150
    modRequires := fun mo _ _ => .ok [{ path := mo, version := "v1.0.0", indirect := false }] }

/-- A concrete configuration for witnesses. -/
def cfgA : Analyzer := { workDir := "/w", modules := ["m1"], goos := ["linux"], goarch := ["amd64"] }

/-- A concrete environment where the module build of `"bad"` fails. -/
def envB : BuildEnv :=
  { baseCalc := fun _ _ => .ok 100
    modCalc := fun mo _ _ => if mo = "bad" then .error "exit status 1" else .ok 150
    modRequires := fun mo _ _ => .ok [{ path := mo, version := "v2.0.0", indirect := false }] }

/-- A concrete configuration containing the failing module `"bad"`. -/
def cfgB : Analyzer :=
  { workDir := "/w", modules := ["bad", "good"], goos := ["linux"], goarch := ["amd64"] }

/-- A concrete environment whose baseline build fails on `("windows", "arm64")`. -/
def envD : BuildEnv :=
  { baseCalc := fun g ar => if g = "windows" ∧ ar = "arm64" then .error "no baseline" else .ok 100
    modCalc := fun _ _ _ => .ok 150
    modRequires := fun mo _ _ => .ok [{ path := mo, version := "v1.0.0", indirect := false }] }

/-- A concrete configuration covering the failing baseline pair of `envD`. -/
def cfgD : Analyzer :=
  { workDir := "/w", modules := ["m1"], goos := ["linux", "windows"], goarch := ["arm64"] }

/-- A concrete environment exhibiting the colliding baseline-cache keys:
the pairs `("a:b", "c")` and `("a", "b:c")` both map to the key
`"a:b:c"`, with distinct baseline sizes 10 and 20. -/
def envC : BuildEnv :=
  { baseCalc := fun g ar =>
      .ok (if g = "a:b" ∧ ar = "c" then 10 else if g = "a" ∧ ar = "b:c" then 20 else 30)
    modCalc := fun _ _ _ => .ok 100
    modRequires := fun mo _ _ => .ok [{ path := mo, version := "v1.2.3", indirect := false }] }

/-- A configuration whose GOOS×GOARCH product contains both colliding pairs. -/
def cfgC : Analyzer :=
  { workDir := "/w", modules := ["m"], goos := ["a:b", "a"], goarch := ["c", "b:c"] }

/-- The first Result of the colliding run: the entry for
`(GOOS, GOARCH, module) = ("a:b", "c", "m")`. -/
def firstCollide : Result :=
  match Analyze envC cfgC with
  | .ok (r :: _) => r
  | _ => default

/-- A concrete requirement list for the version-resolution witness: the
requested module is absent by path, and the direct requirement `"d"` comes
first. -/
def reqsW : List Require :=
  [{ path := "d", version := "v9", indirect := false },
   { path := "t", version := "v8", indirect := true }]

/-- The single Result of running `Analyze envA cfgA`. -/
def rA : Result :=
  { Error := none, Module := "m1", Version := "v1.0.0", GOOS := "linux", GOARCH := "amd64",
    Baseline := 100, WithMod := 150, Cost := 50 }

/-! ## Helper lemmas -/

lemma appendNonempty_cons (acc : List String) (it : String) (rest : List String) :
    appendNonempty acc (it :: rest) =
      appendNonempty (if it ≠ "" then acc ++ [it] else acc) rest := rfl

lemma appendNonempty_eq (items : List String) :
    ∀ acc : List String, appendNonempty acc items = acc ++ items.filter (fun s => !(s == "")) := by
  induction items with
  | nil => intro acc; simp [appendNonempty]
  | cons it rest ih =>
    intro acc
    rw [appendNonempty_cons, List.filter_cons]
    by_cases hit : it = ""
    · rw [if_neg (by simp [hit]), ih]
      simp [hit]
    · rw [if_pos (by simp [hit]), ih]
      simp [hit, List.append_assoc]

lemma selectRequire_cons (r : Require) (rest : List Require) (mo : String) :
    selectRequire (r :: rest) mo =
      if r.path = mo ∨ ¬r.indirect then (r.path, r.version) else selectRequire rest mo := rfl

lemma selectRequire_find (reqs : List Require) (mo : String) :
    selectRequire reqs mo =
      ((reqs.find? fun r => r.path == mo || !r.indirect).map
        fun r => (r.path, r.version)).getD (mo, "<unknown>") := by
  induction reqs with
  | nil => simp [selectRequire]
  | cons r rest ih =>
    by_cases h : r.path = mo ∨ ¬r.indirect
    · have hb : (r.path == mo || !r.indirect) = true := by
        rcases h with h | h
        · simp [h]
        · have h2 : r.indirect = false := by simpa using h
          simp [h2]
      rw [selectRequire_cons, if_pos h, List.find?_cons]
      simp [hb]
    · push_neg at h
      have h1 : (r.path == mo) = false := by simpa using h.1
      have h2 : r.indirect = true := by simpa using h.2
      have hb : (r.path == mo || !r.indirect) = false := by simp [h1, h2]
      rw [selectRequire_cons, if_neg (by push_neg; exact h), List.find?_cons]
      simp only [hb]
      exact ih

lemma find?_or_of_no_path (reqs : List Require) (mo : String)
    (hne : ∀ r ∈ reqs, r.path ≠ mo) :
    (reqs.find? fun r => r.path == mo || !r.indirect) = reqs.find? fun r => !r.indirect := by
  induction reqs with
  | nil => rfl
  | cons r rest ih =>
    have hr : (r.path == mo) = false := by simpa using hne r (by simp)
    have ihr := ih (fun r2 h2 => hne r2 (by simp [h2]))
    rw [List.find?_cons, List.find?_cons]
    cases hind : (!r.indirect) with
    | false => simp [hr, hind, ihr]
    | true => simp [hr, hind]

/-! ## Claims about version resolution (C3, C6) -/

/-- C3 counterexample: the list contains a requirement whose path equals
the requested module `"m"` (the second entry), yet `versionFromModFile`
returns the earlier direct requirement `("a", "v1")`, not `("m", "v2")` —
an exact path match does not take priority over an earlier direct
requirement, contradicting the claimed two-phase rule. -/
theorem versionFromModFile_priority_cex :
    versionFromModFile
        (.ok [{ path := "a", version := "v1", indirect := false },
              { path := "m", version := "v2", indirect := true }]) "m"
      = ("a", "v1", none) ∧
    (("a", "v1", (none : Option Err)) ≠ ("m", "v2", none)) := by
  exact ⟨rfl, by decide⟩

/-- C3 amended: version resolution scans the declared requirements in
order and returns the first requirement whose path equals the requested
module OR which is direct (whichever comes first; an earlier direct
requirement wins over a later path match); only if no requirement
satisfies either condition does it return the sentinel. In particular,
when the requested module is absent by path and some requirement is
direct, it returns the first direct requirement's path and version. -/
theorem versionFromModFile_selection :
    (∀ (reqs : List Require) (mo : String),
      versionFromModFile (.ok reqs) mo =
        (((reqs.find? fun r => r.path == mo || !r.indirect).map
          fun r => (r.path, r.version, (none : Option Err))).getD (mo, "<unknown>", none))) ∧
    (∀ (reqs : List Require) (mo : String) (r0 : Require),
      (∀ r ∈ reqs, r.path ≠ mo) →
      reqs.find? (fun r => !r.indirect) = some r0 →
      versionFromModFile (.ok reqs) mo = (r0.path, r0.version, none)) := by
  constructor
  · intro reqs mo
    simp only [versionFromModFile, selectRequire_find]
    cases reqs.find? fun r => r.path == mo || !r.indirect <;> simp
  · intro reqs mo r0 hne hfind
    simp only [versionFromModFile, selectRequire_find, find?_or_of_no_path reqs mo hne, hfind]
    simp

/-- C3 witness: on `reqsW` the requested module `"m"` is absent by path and
the first direct requirement is `("d", "v9")`, which is returned. -/
theorem versionFromModFile_selection_witness :
    versionFromModFile (.ok reqsW) "m" = ("d", "v9", none) :=
  versionFromModFile_selection.2 reqsW "m"
    { path := "d", version := "v9", indirect := false } (by decide) (by decide)

/-- C6 counterexample: on an empty requirement list (no path match, no
direct requirement) the sentinel version actually returned is the literal
string `"<unknown>"`, not `"unknown"` as the claim states. The requested
identifier and the nil error are as claimed. -/
theorem versionFromModFile_sentinel_cex :
    versionFromModFile (.ok ([] : List Require)) "m" = ("m", "<unknown>", none) ∧
    ("<unknown>" : String) ≠ "unknown" := by
  exact ⟨rfl, by decide⟩

/-- C6 amended: when no requirement's path equals the requested module and
no requirement is direct, version resolution returns the originally
requested identifier with the sentinel version `"<unknown>"` (spelled with
angle brackets) and a nil error — the fallback is not reported as a
failure. -/
theorem versionFromModFile_sentinel (reqs : List Require) (mo : String)
    (h : ∀ r ∈ reqs, r.path ≠ mo ∧ r.indirect = true) :
    versionFromModFile (.ok reqs) mo = (mo, "<unknown>", none) := by
  have hsel : ∀ reqs2 : List Require, (∀ r ∈ reqs2, r.path ≠ mo ∧ r.indirect = true) →
      selectRequire reqs2 mo = (mo, "<unknown>") := by
    intro reqs2 h2
    induction reqs2 with
    | nil => simp [selectRequire]
    | cons r rest ih =>
      have hr := h2 r (by simp)
      have hcond : ¬(r.path = mo ∨ ¬r.indirect) := by
        push_neg
        exact ⟨hr.1, hr.2⟩
      rw [selectRequire_cons, if_neg hcond]
      exact ih (fun r2 hr2 => h2 r2 (by simp [hr2]))
  simp [versionFromModFile, hsel reqs h]

/-- C6 witness: a list with one indirect requirement whose path differs
from the requested module yields the sentinel and no error. -/
theorem versionFromModFile_sentinel_witness :
    versionFromModFile (.ok [{ path := "t", version := "v8", indirect := true }]) "m"
      = ("m", "<unknown>", none) :=
  versionFromModFile_sentinel [{ path := "t", version := "v8", indirect := true }] "m"
    (by decide)

/-! ## Claims about construction (C7, C9, C10) -/

/-- C7: any option list that (applied successfully) leaves the module set
empty makes `NewAnalyzer` fail with the configuration error
"must provide at least one module to analyze" and produce no Analyzer
(the error constructor carries none). Construction performs no filesystem
action at all — `NewAnalyzer` and `validate` only assign fields — so no
working directory is created at construction time. -/
theorem newAnalyzer_empty_modules (opts : List AnalyzerOption) (h : Host) (a : Analyzer)
    (happ : applyOptions opts emptyAnalyzer = Except.ok a) (hmod : a.modules = []) :
    NewAnalyzer opts h = Except.error "must provide at least one module to analyze" := by
  have hstep : NewAnalyzer opts h = validate h a := by
    unfold NewAnalyzer
    rw [happ]
  rw [hstep]
  unfold validate
  rw [hmod]
  rfl

/-- C7 witness: a single option that adds no module (a GOOS option) leaves
the module set empty and construction fails with the configuration error. -/
theorem newAnalyzer_empty_modules_witness :
    NewAnalyzer [WithGOOS "linux"] host0
      = Except.error "must provide at least one module to analyze" :=
  newAnalyzer_empty_modules [WithGOOS "linux"] host0
    { workDir := "", modules := [], goos := ["linux"], goarch := [] } rfl rfl

/-- C9: for a configuration that passes the module check, `validate` fills
exactly the unset fields: an empty workDir becomes the "go-module-cost"
subdirectory of the host temp directory, an empty GOOS list becomes the
host GOOS, an empty GOARCH list becomes the host GOARCH; non-empty values
are kept unchanged. -/
theorem validate_defaults (h : Host) (a : Analyzer) (hmod : a.modules ≠ []) :
    validate h a = Except.ok { a with
      workDir := if a.workDir = "" then filepathJoin h.tempDir "go-module-cost" else a.workDir
      goos := if a.goos = [] then [h.goos] else a.goos
      goarch := if a.goarch = [] then [h.goarch] else a.goarch } := by
  have hlen : ¬a.modules.length = 0 := by
    simpa [List.length_eq_zero] using hmod
  rcases a with ⟨w, ms, gs, ars⟩
  unfold validate
  rw [if_neg hlen]
  by_cases hw : w = "" <;> by_cases hg : gs = [] <;> by_cases har : ars = [] <;>
    simp [hw, hg, har, List.length_eq_zero]

/-- C9 witness: with everything but the module list unset, all three
defaults are applied. -/
theorem validate_defaults_witness :
    validate host0 { workDir := "", modules := ["m1"], goos := [], goarch := [] }
      = Except.ok { workDir := if ("" : String) = "" then filepathJoin host0.tempDir "go-module-cost" else ""
                    modules := ["m1"]
                    goos := if ([] : List String) = [] then [host0.goos] else []
                    goarch := if ([] : List String) = [] then [host0.goarch] else [] } :=
  validate_defaults host0 { workDir := "", modules := ["m1"], goos := [], goarch := [] }
    (by decide)

/-- C10: every string-taking option silently ignores empty-string
arguments — `WithWorkDir`, `WithModule`, `WithGOOS` and `WithGOARCH`
return nil and leave the configuration unchanged on "", and the list
options `WithModules`, `WithGOOSes`, `WithGOARCHes` append exactly the
non-empty elements — and consequently `NewAnalyzer` called only with
empty-string module options fails with the empty-module-set configuration
error. -/
theorem options_ignore_empty_strings (a : Analyzer) (xs : List String) (h : Host) :
    WithWorkDir "" a = Except.ok a ∧
    WithModule "" a = Except.ok a ∧
    WithGOOS "" a = Except.ok a ∧
    WithGOARCH "" a = Except.ok a ∧
    WithModules xs a = Except.ok { a with modules := a.modules ++ xs.filter (fun s => !(s == "")) } ∧
    WithGOOSes xs a = Except.ok { a with goos := a.goos ++ xs.filter (fun s => !(s == "")) } ∧
    WithGOARCHes xs a = Except.ok { a with goarch := a.goarch ++ xs.filter (fun s => !(s == "")) } ∧
    NewAnalyzer [WithModule "", WithModules ["", ""]] h
      = Except.error "must provide at least one module to analyze" := by
  refine ⟨by simp [WithWorkDir], by simp [WithModule], by simp [WithGOOS], by simp [WithGOARCH],
    ?_, ?_, ?_, ?_⟩
  · simp [WithModules, appendNonempty_eq]
  · simp [WithGOOSes, appendNonempty_eq]
  · simp [WithGOARCHes, appendNonempty_eq]
  · rfl

/-! ## Infrastructure for the Analyze claims -/

lemma baselineRow_cons (env : BuildEnv) (g ar : String) (rest : List String) (m : String → Nat) :
    baselineRow env g (ar :: rest) m =
      match env.baseCalc g ar with
      | .error e => .error e
      | .ok baseSize =>
        baselineRow env g rest (fun k => if k = mapKey g ar then baseSize else m k) := rfl

lemma baselineAll_cons (env : BuildEnv) (g : String) (rest goarches : List String)
    (m : String → Nat) :
    baselineAll env (g :: rest) goarches m =
      match baselineRow env g goarches m with
      | .error e => .error e
      | .ok m2 => baselineAll env rest goarches m2 := rfl

lemma pureRow_cons (env : BuildEnv) (g ar : String) (rest : List String) (m : String → Nat) :
    pureRow env g (ar :: rest) m =
      pureRow env g rest
        (fun k => if k = mapKey g ar then okVal (env.baseCalc g ar) else m k) := rfl

lemma pureAll_cons (env : BuildEnv) (g : String) (rest ars : List String) (m : String → Nat) :
    pureAll env (g :: rest) ars m = pureAll env rest ars (pureRow env g ars m) := rfl

lemma baselineRow_isOk (env : BuildEnv) (g : String) :
    ∀ (ars : List String) (m : String → Nat),
      (∀ ar ∈ ars, ∃ n, env.baseCalc g ar = .ok n) →
      baselineRow env g ars m = .ok (pureRow env g ars m) := by
  intro ars
  induction ars with
  | nil => intro m _; rfl
  | cons ar rest ih =>
    intro m h
    obtain ⟨n, hn⟩ := h ar (by simp)
    rw [baselineRow_cons, pureRow_cons]
    simp only [hn, okVal]
    exact ih _ (fun ar2 h2 => h ar2 (by simp [h2]))

lemma baselineAll_isOk (env : BuildEnv) :
    ∀ (gs : List String) (ars : List String) (m : String → Nat),
      (∀ g ∈ gs, ∀ ar ∈ ars, ∃ n, env.baseCalc g ar = .ok n) →
      baselineAll env gs ars m = .ok (pureAll env gs ars m) := by
  intro gs
  induction gs with
  | nil => intro ars m _; rfl
  | cons g rest ih =>
    intro ars m h
    rw [baselineAll_cons, baselineRow_isOk env g ars m (h g (by simp)), pureAll_cons]
    exact ih ars _ (fun g2 h2 => h g2 (by simp [h2]))

lemma baselineRow_err (env : BuildEnv) (g : String) :
    ∀ (ars : List String) (m : String → Nat) (e : Err),
      baselineRow env g ars m = .error e → ∃ ar ∈ ars, env.baseCalc g ar = .error e := by
  intro ars
  induction ars with
  | nil => intro m e h; exact Except.noConfusion h
  | cons ar rest ih =>
    intro m e h
    rw [baselineRow_cons] at h
    cases hc : env.baseCalc g ar with
    | error e2 =>
      rw [hc] at h
      simp only [] at h
      injection h with h2
      exact ⟨ar, by simp, by rw [hc, h2]⟩
    | ok n =>
      rw [hc] at h
      simp only [] at h
      obtain ⟨ar2, hmem, hsrc⟩ := ih _ _ h
      exact ⟨ar2, by simp [hmem], hsrc⟩

lemma baselineAll_err (env : BuildEnv) :
    ∀ (gs ars : List String) (m : String → Nat) (e : Err),
      baselineAll env gs ars m = .error e →
      ∃ g ∈ gs, ∃ ar ∈ ars, env.baseCalc g ar = .error e := by
  intro gs
  induction gs with
  | nil => intro ars m e h; exact Except.noConfusion h
  | cons g rest ih =>
    intro ars m e h
    rw [baselineAll_cons] at h
    cases hc : baselineRow env g ars m with
    | error e2 =>
      rw [hc] at h
      simp only [] at h
      injection h with h2
      obtain ⟨ar, hmem, hsrc⟩ := baselineRow_err env g ars m e2 hc
      exact ⟨g, by simp, ar, hmem, by rw [hsrc, h2]⟩
    | ok m2 =>
      rw [hc] at h
      simp only [] at h
      obtain ⟨g2, hg2, ar2, har2, hsrc⟩ := ih ars m2 e h
      exact ⟨g2, by simp [hg2], ar2, har2, hsrc⟩

lemma baselineRow_ok_all (env : BuildEnv) (g : String) :
    ∀ (ars : List String) (m m2 : String → Nat),
      baselineRow env g ars m = .ok m2 → ∀ ar ∈ ars, ∃ n, env.baseCalc g ar = .ok n := by
  intro ars
  induction ars with
  | nil => intro m m2 _ ar h; simp at h
  | cons ar0 rest ih =>
    intro m m2 h ar hmem
    rw [baselineRow_cons] at h
    cases hc : env.baseCalc g ar0 with
    | error e =>
      rw [hc] at h
      exact Except.noConfusion h
    | ok n =>
      rw [hc] at h
      simp only [] at h
      rcases List.mem_cons.mp hmem with h2 | h2
      · exact ⟨n, by rw [h2, hc]⟩
      · exact ih _ _ h ar h2

lemma baselineAll_ok_all (env : BuildEnv) :
    ∀ (gs ars : List String) (m m2 : String → Nat),
      baselineAll env gs ars m = .ok m2 →
      ∀ g ∈ gs, ∀ ar ∈ ars, ∃ n, env.baseCalc g ar = .ok n := by
  intro gs
  induction gs with
  | nil => intro ars m m2 _ g h; simp at h
  | cons g0 rest ih =>
    intro ars m m2 h g hg ar har
    rw [baselineAll_cons] at h
    cases hc : baselineRow env g0 ars m with
    | error e =>
      rw [hc] at h
      exact Except.noConfusion h
    | ok mrow =>
      rw [hc] at h
      simp only [] at h
      rcases List.mem_cons.mp hg with h2 | h2
      · subst h2
        exact baselineRow_ok_all env g ars m mrow hc ar har
      · exact ih ars mrow m2 h g h2 ar har

lemma baselineRow_bounded (env : BuildEnv) (g : String)
    (hb : ∀ ar n, env.baseCalc g ar = .ok n → n < 2 ^ 64) :
    ∀ (ars : List String) (m m2 : String → Nat),
      baselineRow env g ars m = .ok m2 → (∀ k, m k < 2 ^ 64) → ∀ k, m2 k < 2 ^ 64 := by
  intro ars
  induction ars with
  | nil =>
    intro m m2 h hm k
    injection h with h2
    rw [← h2]
    exact hm k
  | cons ar rest ih =>
    intro m m2 h hm k
    rw [baselineRow_cons] at h
    cases hc : env.baseCalc g ar with
    | error e =>
      rw [hc] at h
      exact Except.noConfusion h
    | ok n =>
      rw [hc] at h
      simp only [] at h
      refine ih _ _ h ?_ k
      intro k2
      by_cases hk : k2 = mapKey g ar
      · simpa [hk] using hb ar n hc
      · simpa [hk] using hm k2

lemma baselineAll_bounded (env : BuildEnv)
    (hb : ∀ g ar n, env.baseCalc g ar = .ok n → n < 2 ^ 64) :
    ∀ (gs ars : List String) (m m2 : String → Nat),
      baselineAll env gs ars m = .ok m2 → (∀ k, m k < 2 ^ 64) → ∀ k, m2 k < 2 ^ 64 := by
  intro gs
  induction gs with
  | nil =>
    intro ars m m2 h hm k
    injection h with h2
    rw [← h2]
    exact hm k
  | cons g rest ih =>
    intro ars m m2 h hm k
    rw [baselineAll_cons] at h
    cases hc : baselineRow env g ars m with
    | error e =>
      rw [hc] at h
      exact Except.noConfusion h
    | ok mrow =>
      rw [hc] at h
      simp only [] at h
      exact ih ars mrow m2 h (baselineRow_bounded env g (hb g) ars m mrow hc hm) k

lemma analyzeModule_err (env : BuildEnv) (mo g ar : String) (e : Err)
    (h : (analyzeModule env mo g ar).2 = some e) :
    (analyzeModule env mo g ar).1 =
      { Error := some e, Module := mo, Version := "", GOOS := g, GOARCH := ar,
        Baseline := 0, WithMod := 0, Cost := 0 } := by
  revert h
  unfold analyzeModule
  cases hc : env.modCalc mo g ar with
  | error e2 =>
    intro h
    simp only [] at h
    injection h with h2
    simp [h2]
  | ok modSize =>
    cases hreq : env.modRequires mo g ar with
    | error e2 =>
      intro h
      simp only [versionFromModFile] at h ⊢
      injection h with h2
      simp [h2]
    | ok reqs =>
      intro h
      simp only [versionFromModFile] at h
      exact Option.noConfusion h

lemma analyzeModule_ok (env : BuildEnv) (mo g ar : String)
    (h : (analyzeModule env mo g ar).2 = none) :
    ∃ modSize reqs, env.modCalc mo g ar = .ok modSize ∧ env.modRequires mo g ar = .ok reqs ∧
      (analyzeModule env mo g ar).1 =
        { Error := none, Module := (selectRequire reqs mo).1,
          Version := (selectRequire reqs mo).2, GOOS := g, GOARCH := ar,
          Baseline := 0, WithMod := modSize, Cost := 0 } := by
  revert h
  unfold analyzeModule
  cases hc : env.modCalc mo g ar with
  | error e2 =>
    intro h
    exact Option.noConfusion h
  | ok modSize =>
    cases hreq : env.modRequires mo g ar with
    | error e2 =>
      intro h
      simp only [versionFromModFile] at h
      exact Option.noConfusion h
    | ok reqs =>
      intro _
      exact ⟨modSize, reqs, rfl, rfl, by simp [versionFromModFile]⟩

lemma resultFor_err (env : BuildEnv) (bm : String → Nat) (g ar mo : String) (e : Err)
    (h : (analyzeModule env mo g ar).2 = some e) :
    resultFor env bm g ar mo = (analyzeModule env mo g ar).1 := by
  unfold resultFor
  simp only [h]

lemma resultFor_ok (env : BuildEnv) (bm : String → Nat) (g ar mo : String)
    (h : (analyzeModule env mo g ar).2 = none) :
    resultFor env bm g ar mo =
      { (analyzeModule env mo g ar).1 with
        Baseline := bm (mapKey g ar)
        Cost := sub64 (analyzeModule env mo g ar).1.WithMod (bm (mapKey g ar)) } := by
  unfold resultFor
  simp only [h]

lemma resultFor_fields (env : BuildEnv) (bm : String → Nat) (g ar mo : String) :
    (resultFor env bm g ar mo).GOOS = g ∧ (resultFor env bm g ar mo).GOARCH = ar := by
  cases h : (analyzeModule env mo g ar).2 with
  | none =>
    obtain ⟨modSize, reqs, _, _, h1⟩ := analyzeModule_ok env mo g ar h
    rw [resultFor_ok env bm g ar mo h, h1]
    exact ⟨rfl, rfl⟩
  | some e =>
    rw [resultFor_err env bm g ar mo e h, analyzeModule_err env mo g ar e h]
    exact ⟨rfl, rfl⟩

lemma prodRow_length (g : String) (ms : List String) :
    ∀ ars : List String,
      (ars.flatMap fun ar => ms.map fun mo => (g, ar, mo)).length = ars.length * ms.length := by
  intro ars
  induction ars with
  | nil => simp
  | cons ar rest ih =>
    simp only [List.flatMap_cons, List.length_append, List.length_map, ih, List.length_cons]
    ring

lemma tripleProd_length (gs ars ms : List String) :
    (tripleProd gs ars ms).length = gs.length * ars.length * ms.length := by
  induction gs with
  | nil => simp [tripleProd]
  | cons g rest ih =>
    simp only [tripleProd, List.flatMap_cons, List.length_append, prodRow_length,
      List.length_cons] at ih ⊢
    rw [ih]
    ring

lemma tripleProd_mem (gs ars ms : List String) (t : String × String × String) :
    t ∈ tripleProd gs ars ms ↔ t.1 ∈ gs ∧ t.2.1 ∈ ars ∧ t.2.2 ∈ ms := by
  obtain ⟨g, ar, mo⟩ := t
  simp only [tripleProd, List.mem_flatMap, List.mem_map, Prod.mk.injEq]
  constructor
  · rintro ⟨g2, hg2, ar2, har2, mo2, hmo2, rfl, rfl, rfl⟩
    exact ⟨hg2, har2, hmo2⟩
  · rintro ⟨hg, har, hmo⟩
    exact ⟨g, hg, ar, har, mo, hmo, rfl, rfl, rfl⟩

lemma flatMap_tripleProd (gs ars ms : List String) (f : String → String → String → Result) :
    (gs.flatMap fun g => ars.flatMap fun ar => ms.map fun mo => f g ar mo)
      = (tripleProd gs ars ms).map fun t => f t.1 t.2.1 t.2.2 := by
  simp only [tripleProd, List.map_flatMap, List.map_map]
  rfl

lemma analyze_ok_form (env : BuildEnv) (a : Analyzer)
    (hbase : ∀ g ∈ a.goos, ∀ ar ∈ a.goarch, ∃ n, env.baseCalc g ar = .ok n) :
    Analyze env a = Except.ok ((tripleProd a.goos a.goarch a.modules).map
      fun t => resultFor env (pureAll env a.goos a.goarch initMap) t.1 t.2.1 t.2.2) := by
  unfold Analyze
  rw [baselineAll_isOk env a.goos a.goarch initMap hbase]
  simp only []
  rw [flatMap_tripleProd]

lemma analyze_ok_elim (env : BuildEnv) (a : Analyzer) (rs : List Result)
    (h : Analyze env a = Except.ok rs) :
    ∃ bm, baselineAll env a.goos a.goarch initMap = .ok bm ∧
      rs = (tripleProd a.goos a.goarch a.modules).map
        fun t => resultFor env bm t.1 t.2.1 t.2.2 := by
  unfold Analyze at h
  cases hb : baselineAll env a.goos a.goarch initMap with
  | error e =>
    rw [hb] at h
    exact Except.noConfusion h
  | ok bm =>
    rw [hb] at h
    simp only [] at h
    injection h with h2
    exact ⟨bm, rfl, by rw [← h2, flatMap_tripleProd]⟩

lemma pureRow_ne (env : BuildEnv) (g : String) :
    ∀ (ars : List String) (m : String → Nat) (k : String),
      (∀ ar ∈ ars, k ≠ mapKey g ar) → pureRow env g ars m k = m k := by
  intro ars
  induction ars with
  | nil => intro m k _; rfl
  | cons ar rest ih =>
    intro m k h
    rw [pureRow_cons, ih _ _ (fun ar2 h2 => h ar2 (by simp [h2]))]
    rw [if_neg (h ar (by simp))]

lemma pureAll_ne (env : BuildEnv) :
    ∀ (gs ars : List String) (m : String → Nat) (k : String),
      (∀ g ∈ gs, ∀ ar ∈ ars, k ≠ mapKey g ar) → pureAll env gs ars m k = m k := by
  intro gs
  induction gs with
  | nil => intro ars m k _; rfl
  | cons g rest ih =>
    intro ars m k h
    rw [pureAll_cons, ih ars _ k (fun g2 h2 ar2 ha2 => h g2 (by simp [h2]) ar2 ha2)]
    exact pureRow_ne env g ars m k (h g (by simp))

lemma pureRow_lookup (env : BuildEnv) (g : String) :
    ∀ (ars : List String) (m : String → Nat) (ar : String), ar ∈ ars →
      (∀ ar2 ∈ ars, mapKey g ar2 = mapKey g ar → ar2 = ar) →
      pureRow env g ars m (mapKey g ar) = okVal (env.baseCalc g ar) := by
  intro ars
  induction ars with
  | nil => intro m ar h; simp at h
  | cons a0 rest ih =>
    intro m ar hmem hinj
    rw [pureRow_cons]
    by_cases hr : ar ∈ rest
    · exact ih _ ar hr (fun ar2 h2 he2 => hinj ar2 (by simp [h2]) he2)
    · have ha0 : ar = a0 := by
        rcases List.mem_cons.mp hmem with h | h
        · exact h
        · exact absurd h hr
      subst ha0
      rw [pureRow_ne env g rest _ _ ?hne]
      · rw [if_pos rfl]
      case hne =>
        intro ar2 h2 heq
        have har2 : ar2 = ar := hinj ar2 (by simp [h2]) heq.symm
        exact hr (har2 ▸ h2)

lemma pureAll_lookup (env : BuildEnv) :
    ∀ (gs ars : List String) (m : String → Nat) (g ar : String), g ∈ gs → ar ∈ ars →
      (∀ g1 ∈ gs, ∀ g2 ∈ gs, ∀ ar1 ∈ ars, ∀ ar2 ∈ ars,
        mapKey g1 ar1 = mapKey g2 ar2 → g1 = g2 ∧ ar1 = ar2) →
      pureAll env gs ars m (mapKey g ar) = okVal (env.baseCalc g ar) := by
  intro gs
  induction gs with
  | nil => intro ars m g ar h; simp at h
  | cons g0 rest ih =>
    intro ars m g ar hg har hinj
    rw [pureAll_cons]
    by_cases hgr : g ∈ rest
    · exact ih ars _ g ar hgr har (fun g1 h1 g2 h2 ar1 ha1 ar2 ha2 =>
        hinj g1 (by simp [h1]) g2 (by simp [h2]) ar1 ha1 ar2 ha2)
    · have hg0 : g = g0 := by
        rcases List.mem_cons.mp hg with h | h
        · exact h
        · exact absurd h hgr
      subst hg0
      rw [pureAll_ne env rest ars _ _ ?hne2]
      · exact pureRow_lookup env g ars m ar har
          (fun ar2 h2 heq => (hinj g (by simp) g (by simp) ar2 h2 ar har heq).2)
      case hne2 =>
        intro g2 h2 ar2 ha2 heq
        have h12 := hinj g (by simp) g2 (by simp [h2]) ar har ar2 ha2 heq
        exact hgr (h12.1 ▸ h2)

/-! ## Claims about Analyze (C1, C2, C4, C5, C8) -/

/-- C1: for a valid configuration (non-empty module, GOOS and GOARCH lists)
in which every baseline build succeeds, `Analyze` returns exactly the list
of one Result per (GOOS, GOARCH, module) triple of the ordered cross
product `tripleProd` — GOOS outermost, GOARCH middle, module innermost,
each following input order — whose length is |GOOS|·|GOARCH|·|modules|,
whose triples are exactly the member combinations, and whose entry for a
triple carries that triple's GOOS and GOARCH. -/
theorem analyze_matrix (env : BuildEnv) (a : Analyzer)
    (hm : a.modules ≠ []) (hg : a.goos ≠ []) (har : a.goarch ≠ [])
    (hbase : ∀ g ∈ a.goos, ∀ ar ∈ a.goarch, ∃ n, env.baseCalc g ar = .ok n) :
    Analyze env a = Except.ok ((tripleProd a.goos a.goarch a.modules).map
      fun t => resultFor env (pureAll env a.goos a.goarch initMap) t.1 t.2.1 t.2.2) ∧
    ((tripleProd a.goos a.goarch a.modules).map
      fun t => resultFor env (pureAll env a.goos a.goarch initMap) t.1 t.2.1 t.2.2).length
        = a.goos.length * a.goarch.length * a.modules.length ∧
    (∀ t : String × String × String, t ∈ tripleProd a.goos a.goarch a.modules ↔
      t.1 ∈ a.goos ∧ t.2.1 ∈ a.goarch ∧ t.2.2 ∈ a.modules) ∧
    (∀ (bm : String → Nat) (g ar mo : String),
      (resultFor env bm g ar mo).GOOS = g ∧ (resultFor env bm g ar mo).GOARCH = ar) := by
  refine ⟨analyze_ok_form env a hbase, ?_, ?_, ?_⟩
  · rw [List.length_map, tripleProd_length]
  · intro t
    exact tripleProd_mem a.goos a.goarch a.modules t
  · intro bm g ar mo
    exact resultFor_fields env bm g ar mo

/-- C1 witness: the concrete all-success run produces exactly the mapped
cross product. -/
theorem analyze_matrix_witness :
    Analyze envA cfgA = Except.ok ((tripleProd cfgA.goos cfgA.goarch cfgA.modules).map
      fun t => resultFor envA (pureAll envA cfgA.goos cfgA.goarch initMap) t.1 t.2.1 t.2.2) :=
  (analyze_matrix envA cfgA (by decide) (by decide) (by decide)
    (fun _ _ _ _ => ⟨100, rfl⟩)).1

/-- C2: in any run whose sizes are genuine uint64 values (below 2^64, as
Go's uint64 guarantees), every returned Result without an error has
`Cost = (WithMod - Baseline) mod 2^64` — exact unsigned 64-bit
subtraction, wrapping instead of going negative when WithMod < Baseline. -/
theorem analyze_cost_wraps (env : BuildEnv) (a : Analyzer)
    (hb : ∀ g ar n, env.baseCalc g ar = .ok n → n < 2 ^ 64)
    (hm : ∀ mo g ar n, env.modCalc mo g ar = .ok n → n < 2 ^ 64)
    (rs : List Result) (hrs : Analyze env a = Except.ok rs)
    (r : Result) (hr : r ∈ rs) (he : r.Error = none) :
    r.WithMod < 2 ^ 64 ∧ r.Baseline < 2 ^ 64 ∧
      r.Cost = (r.WithMod + (2 ^ 64 - r.Baseline)) % 2 ^ 64 := by
  obtain ⟨bm, hbm, hform⟩ := analyze_ok_elim env a rs hrs
  subst hform
  obtain ⟨t, _, rfl⟩ := List.mem_map.mp hr
  cases hsnd : (analyzeModule env t.2.2 t.1 t.2.1).2 with
  | some e =>
    rw [resultFor_err env bm t.1 t.2.1 t.2.2 e hsnd,
      analyzeModule_err env t.2.2 t.1 t.2.1 e hsnd] at he
    exact Option.noConfusion he
  | none =>
    obtain ⟨modSize, reqs, hcalc, hreq, h1⟩ := analyzeModule_ok env t.2.2 t.1 t.2.1 hsnd
    have hw : modSize < 2 ^ 64 := hm t.2.2 t.1 t.2.1 modSize hcalc
    have hbb : bm (mapKey t.1 t.2.1) < 2 ^ 64 :=
      baselineAll_bounded env hb a.goos a.goarch initMap bm hbm
        (fun _ => by simp [initMap]) (mapKey t.1 t.2.1)
    rw [resultFor_ok env bm t.1 t.2.1 t.2.2 hsnd, h1]
    refine ⟨hw, hbb, ?_⟩
    show sub64 modSize (bm (mapKey t.1 t.2.1))
      = (modSize + (2 ^ 64 - bm (mapKey t.1 t.2.1))) % 2 ^ 64
    unfold sub64
    rw [Nat.mod_eq_of_lt hw, Nat.mod_eq_of_lt hbb]

/-- C2 witness: in the concrete all-success run, the single Result has
Cost 50 = (150 + (2^64 - 100)) mod 2^64. -/
theorem analyze_cost_wraps_witness :
    rA.WithMod < 2 ^ 64 ∧ rA.Baseline < 2 ^ 64 ∧
      rA.Cost = (rA.WithMod + (2 ^ 64 - rA.Baseline)) % 2 ^ 64 :=
  analyze_cost_wraps envA cfgA
    (fun _ _ n hn => by
      have h100 : (100 : Nat) = n := by simpa [envA] using hn
      rw [← h100]
      decide)
    (fun _ _ _ n hn => by
      have h150 : (150 : Nat) = n := by simpa [envA] using hn
      rw [← h150]
      decide)
    [rA] rfl rA (by simp) rfl

/-- C4: if the baseline measurement fails for some configured
(GOOS, GOARCH) pair, `Analyze` returns a hard error — an error that is
itself the baseline failure of some configured pair — and no result
sequence at all (the error constructor carries none): never a partial
sequence. -/
theorem analyze_baseline_abort (env : BuildEnv) (a : Analyzer) (g ar : String) (e : Err)
    (hg : g ∈ a.goos) (har : ar ∈ a.goarch) (hfail : env.baseCalc g ar = .error e) :
    ∃ e2, Analyze env a = Except.error e2 ∧
      ∃ g2 ∈ a.goos, ∃ ar2 ∈ a.goarch, env.baseCalc g2 ar2 = Except.error e2 := by
  cases hb : baselineAll env a.goos a.goarch initMap with
  | ok bm =>
    obtain ⟨n, hn⟩ := baselineAll_ok_all env a.goos a.goarch initMap bm hb g hg ar har
    rw [hfail] at hn
    exact Except.noConfusion hn
  | error e2 =>
    refine ⟨e2, ?_, baselineAll_err env a.goos a.goarch initMap e2 hb⟩
    unfold Analyze
    rw [hb]

/-- C4 witness: with the baseline of ("windows", "arm64") failing,
`Analyze` aborts with a baseline error of some configured pair. -/
theorem analyze_baseline_abort_witness :
    ∃ e2, Analyze envD cfgD = Except.error e2 ∧
      ∃ g2 ∈ cfgD.goos, ∃ ar2 ∈ cfgD.goarch, envD.baseCalc g2 ar2 = Except.error e2 :=
  analyze_baseline_abort envD cfgD "windows" "arm64" "no baseline"
    (by decide) (by decide) rfl

/-- C5: after all baselines succeed, a triple whose measurement fails
contributes a Result carrying exactly the requested module identifier,
the triple's GOOS and GOARCH, the non-nil error, zero Baseline, WithMod
and Cost and an empty Version; that Result is in the returned sequence,
the sequence still has the full |GOOS|·|GOARCH|·|modules| length, and
every triple of the cross product still contributes its own Result — one
triple's failure never prevents another triple from being measured. -/
theorem analyze_triple_failure (env : BuildEnv) (a : Analyzer)
    (hbase : ∀ g ∈ a.goos, ∀ ar ∈ a.goarch, ∃ n, env.baseCalc g ar = .ok n)
    (g ar mo : String) (e : Err)
    (hg : g ∈ a.goos) (har : ar ∈ a.goarch) (hmo : mo ∈ a.modules)
    (hfail : (analyzeModule env mo g ar).2 = some e) :
    (analyzeModule env mo g ar).1 =
      { Error := some e, Module := mo, Version := "", GOOS := g, GOARCH := ar,
        Baseline := 0, WithMod := 0, Cost := 0 } ∧
    ∃ rs, Analyze env a = Except.ok rs ∧
      rs.length = a.goos.length * a.goarch.length * a.modules.length ∧
      (analyzeModule env mo g ar).1 ∈ rs ∧
      ∀ t ∈ tripleProd a.goos a.goarch a.modules,
        resultFor env (pureAll env a.goos a.goarch initMap) t.1 t.2.1 t.2.2 ∈ rs := by
  refine ⟨analyzeModule_err env mo g ar e hfail, ?_⟩
  refine ⟨(tripleProd a.goos a.goarch a.modules).map
      fun t => resultFor env (pureAll env a.goos a.goarch initMap) t.1 t.2.1 t.2.2,
    analyze_ok_form env a hbase, ?_, ?_, ?_⟩
  · rw [List.length_map, tripleProd_length]
  · have hmem : ((g, ar, mo) : String × String × String) ∈ tripleProd a.goos a.goarch a.modules :=
      (tripleProd_mem a.goos a.goarch a.modules (g, ar, mo)).mpr ⟨hg, har, hmo⟩
    have heq : resultFor env (pureAll env a.goos a.goarch initMap) g ar mo
        = (analyzeModule env mo g ar).1 :=
      resultFor_err env (pureAll env a.goos a.goarch initMap) g ar mo e hfail
    have := List.mem_map_of_mem
      (fun t : String × String × String =>
        resultFor env (pureAll env a.goos a.goarch initMap) t.1 t.2.1 t.2.2) hmem
    rw [← heq]
    exact this
  · intro t ht
    exact List.mem_map_of_mem _ ht

/-- C5 witness: in the run with the failing module "bad", its Result
carries the requested identifier, the error and zero values. -/
theorem analyze_triple_failure_witness :
    (analyzeModule envB "bad" "linux" "amd64").1 =
      { Error := some "exit status 1", Module := "bad", Version := "", GOOS := "linux",
        GOARCH := "amd64", Baseline := 0, WithMod := 0, Cost := 0 } :=
  (analyze_triple_failure envB cfgB (fun _ _ _ _ => ⟨100, rfl⟩) "linux" "amd64" "bad"
    "exit status 1" (by decide) (by decide) (by decide) rfl).1

/-- C8 counterexample: with GOOS list ["a:b", "a"] and GOARCH list
["c", "b:c"], the pairs ("a:b", "c") and ("a", "b:c") collide on the
cache key "a:b:c". All baselines succeed (baseline of ("a:b", "c") is 10,
of ("a", "b:c") is 20), yet the successful Result for the pair
("a:b", "c") carries Baseline 20 — the other pair's baseline, which
overwrote the key — not the baseline 10 computed for its own pair, so a
successful Result's Baseline is NOT always the baseline computed for its
(GOOS, GOARCH) pair. -/
theorem baseline_collision_cex :
    envC.baseCalc "a:b" "c" = Except.ok 10 ∧
    firstCollide.Error = none ∧ firstCollide.GOOS = "a:b" ∧ firstCollide.GOARCH = "c" ∧
    firstCollide.Baseline = 20 ∧ (20 : Nat) ≠ 10 :=
  ⟨rfl, rfl, rfl, rfl, rfl, by decide⟩

/-- C8 amended: when all baselines succeed AND the colon-joined cache key
is injective on the configured (GOOS, GOARCH) pairs (true in particular
whenever no configured GOOS or GOARCH contains a colon), every successful
Result's Baseline is exactly the baseline measured once for its own
(GOOS, GOARCH) pair in the baseline phase — so all successful Results
sharing a pair share that single baseline. The cache is written only in
the baseline phase and only read afterwards (`baselineAll` builds it;
`resultFor` only reads it). -/
theorem baseline_reuse (env : BuildEnv) (a : Analyzer)
    (hbase : ∀ g ∈ a.goos, ∀ ar ∈ a.goarch, ∃ n, env.baseCalc g ar = .ok n)
    (hinj : ∀ g1 ∈ a.goos, ∀ g2 ∈ a.goos, ∀ ar1 ∈ a.goarch, ∀ ar2 ∈ a.goarch,
      mapKey g1 ar1 = mapKey g2 ar2 → g1 = g2 ∧ ar1 = ar2)
    (rs : List Result) (hrs : Analyze env a = Except.ok rs)
    (r : Result) (hr : r ∈ rs) (he : r.Error = none) :
    env.baseCalc r.GOOS r.GOARCH = Except.ok r.Baseline := by
  have hform := analyze_ok_form env a hbase
  rw [hrs] at hform
  injection hform with hform
  subst hform
  obtain ⟨t, ht, rfl⟩ := List.mem_map.mp hr
  obtain ⟨hgmem, harmem, _⟩ := (tripleProd_mem a.goos a.goarch a.modules t).mp ht
  cases hsnd : (analyzeModule env t.2.2 t.1 t.2.1).2 with
  | some e =>
    rw [resultFor_err env _ t.1 t.2.1 t.2.2 e hsnd,
      analyzeModule_err env t.2.2 t.1 t.2.1 e hsnd] at he
    exact Option.noConfusion he
  | none =>
    obtain ⟨modSize, reqs, hcalc, hreq, h1⟩ := analyzeModule_ok env t.2.2 t.1 t.2.1 hsnd
    rw [resultFor_ok env _ t.1 t.2.1 t.2.2 hsnd, h1]
    obtain ⟨n, hn⟩ := hbase t.1 hgmem t.2.1 harmem
    have hlook := pureAll_lookup env a.goos a.goarch initMap t.1 t.2.1 hgmem harmem hinj
    simp only []
    rw [hlook, hn, okVal]

/-- C8 witness: in the collision-free concrete run, the successful Result's
Baseline is its pair's own measured baseline. -/
theorem baseline_reuse_witness :
    envA.baseCalc rA.GOOS rA.GOARCH = Except.ok rA.Baseline :=
  baseline_reuse envA cfgA (fun _ _ _ _ => ⟨100, rfl⟩) (by decide) [rA] rfl rA (by simp) rfl
